import Mathlib

set_option maxHeartbeats 1000000
set_option maxRecDepth 8192

/-!
Shallow embedding of `api/analyze.js` (the stockhome working repository).

The source file holds two drafts of the same serverless handler; the spec
designates the drafts as development history collapsing to one handler, and
the later draft (the one with the test sentinel, the `isValidBase64Image`
guard, field-specific validation messages and the parse-failure fallback
synthesis) is the behaviour the spec documents, so that draft is embedded
here.  `JSON.parse` is modelled by an executable parser of the JSON grammar
(ECMA-404); the three regex rewrites of the normalizer are modelled by
direct list functions with the same leftmost-match semantics.  Machine
floats never matter to any claim, so a JSON number keeps its literal text.
The request body fields are modelled as optional strings (a JS falsy check
on a string field holds exactly for an absent or empty field), and the
single upstream call is modelled by passing the gateway response as an
explicit input to the handler function.
-/

namespace StockHome

/-- JSON values.  A number keeps the literal text it was written with:
no claim inspects numeric magnitude, and JS float semantics stay out of
the embedding. -/
inductive Json where
  | null
  | bool (b : Bool)
  | num (lit : String)
  | str (s : String)
  | arr (elems : List Json)
  | obj (fields : List (String × Json))

mutual

/-- Decidable equality of JSON values (hand-rolled: the nested inductive
defeats the deriving handler). -/
def Json.decEq : (a b : Json) → Decidable (a = b)
  | .null, .null => isTrue rfl
  | .null, .bool _ => isFalse (fun h => Json.noConfusion h)
  | .null, .num _ => isFalse (fun h => Json.noConfusion h)
  | .null, .str _ => isFalse (fun h => Json.noConfusion h)
  | .null, .arr _ => isFalse (fun h => Json.noConfusion h)
  | .null, .obj _ => isFalse (fun h => Json.noConfusion h)
  | .bool _, .null => isFalse (fun h => Json.noConfusion h)
  | .bool x, .bool y =>
    if h : x = y then isTrue (by rw [h]) else isFalse (fun hh => h (Json.bool.inj hh))
  | .bool _, .num _ => isFalse (fun h => Json.noConfusion h)
  | .bool _, .str _ => isFalse (fun h => Json.noConfusion h)
  | .bool _, .arr _ => isFalse (fun h => Json.noConfusion h)
  | .bool _, .obj _ => isFalse (fun h => Json.noConfusion h)
  | .num _, .null => isFalse (fun h => Json.noConfusion h)
  | .num _, .bool _ => isFalse (fun h => Json.noConfusion h)
  | .num x, .num y =>
    if h : x = y then isTrue (by rw [h]) else isFalse (fun hh => h (Json.num.inj hh))
  | .num _, .str _ => isFalse (fun h => Json.noConfusion h)
  | .num _, .arr _ => isFalse (fun h => Json.noConfusion h)
  | .num _, .obj _ => isFalse (fun h => Json.noConfusion h)
  | .str _, .null => isFalse (fun h => Json.noConfusion h)
  | .str _, .bool _ => isFalse (fun h => Json.noConfusion h)
  | .str _, .num _ => isFalse (fun h => Json.noConfusion h)
  | .str x, .str y =>
    if h : x = y then isTrue (by rw [h]) else isFalse (fun hh => h (Json.str.inj hh))
  | .str _, .arr _ => isFalse (fun h => Json.noConfusion h)
  | .str _, .obj _ => isFalse (fun h => Json.noConfusion h)
  | .arr _, .null => isFalse (fun h => Json.noConfusion h)
  | .arr _, .bool _ => isFalse (fun h => Json.noConfusion h)
  | .arr _, .num _ => isFalse (fun h => Json.noConfusion h)
  | .arr _, .str _ => isFalse (fun h => Json.noConfusion h)
  | .arr xs, .arr ys =>
    match Json.decEqList xs ys with
    | isTrue h => isTrue (by rw [h])
    | isFalse h => isFalse (fun hh => h (Json.arr.inj hh))
  | .arr _, .obj _ => isFalse (fun h => Json.noConfusion h)
  | .obj _, .null => isFalse (fun h => Json.noConfusion h)
  | .obj _, .bool _ => isFalse (fun h => Json.noConfusion h)
  | .obj _, .num _ => isFalse (fun h => Json.noConfusion h)
  | .obj _, .str _ => isFalse (fun h => Json.noConfusion h)
  | .obj _, .arr _ => isFalse (fun h => Json.noConfusion h)
  | .obj xs, .obj ys =>
    match Json.decEqFields xs ys with
    | isTrue h => isTrue (by rw [h])
    | isFalse h => isFalse (fun hh => h (Json.obj.inj hh))

def Json.decEqList : (xs ys : List Json) → Decidable (xs = ys)
  | [], [] => isTrue rfl
  | [], _ :: _ => isFalse (fun h => List.noConfusion h)
  | _ :: _, [] => isFalse (fun h => List.noConfusion h)
  | x :: xs, y :: ys =>
    match Json.decEq x y with
    | isTrue h1 =>
      match Json.decEqList xs ys with
      | isTrue h2 => isTrue (by rw [h1, h2])
      | isFalse h2 => isFalse (fun hh => h2 (List.cons.inj hh).2
      )
    | isFalse h1 => isFalse (fun hh => h1 (List.cons.inj hh).1)

def Json.decEqFields : (xs ys : List (String × Json)) → Decidable (xs = ys)
  | [], [] => isTrue rfl
  | [], _ :: _ => isFalse (fun h => List.noConfusion h)
  | _ :: _, [] => isFalse (fun h => List.noConfusion h)
  | (k1, v1) :: xs, (k2, v2) :: ys =>
    if hk : k1 = k2 then
      match Json.decEq v1 v2 with
      | isTrue h1 =>
        match Json.decEqFields xs ys with
        | isTrue h2 => isTrue (by rw [hk, h1, h2])
        | isFalse h2 => isFalse (fun hh => h2 (List.cons.inj hh).2)
      | isFalse h1 => isFalse (fun hh => h1 (congrArg Prod.snd (List.cons.inj hh).1))
    else isFalse (fun hh => hk (congrArg Prod.fst (List.cons.inj hh).1))

end

instance : DecidableEq Json := Json.decEq

/-- Field lookup on a JSON object (first binding wins; no claim involves
duplicate keys). -/
def Json.getField : Json → String → Option Json
  | .obj fs, k => fs.lookup k
  | _, _ => none

/-- JSON whitespace (also the whitespace the normalizer's trim and the
fence regexes erase; exotic Unicode whitespace plays no role in any claim). -/
def isWs (c : Char) : Bool :=
  c = ' ' || c = '\t' || c = '\n' || c = '\r'

def skipWs (cs : List Char) : List Char := cs.dropWhile isWs

def hexVal (c : Char) : Option Nat :=
  if '0' ≤ c ∧ c ≤ '9' then some (c.toNat - 48)
  else if 'a' ≤ c ∧ c ≤ 'f' then some (c.toNat - 87)
  else if 'A' ≤ c ∧ c ≤ 'F' then some (c.toNat - 55)
  else none

/-- Body of a JSON string literal after the opening quote: returns the
decoded characters and the input after the closing quote. -/
def parseStringBody : List Char → Option (List Char × List Char)
  | [] => none
  | '"' :: rest => some ([], rest)
  | '\\' :: e :: rest =>
    match e with
    | '"' => (parseStringBody rest).map (fun p => ('"' :: p.1, p.2))
    | '\\' => (parseStringBody rest).map (fun p => ('\\' :: p.1, p.2))
    | '/' => (parseStringBody rest).map (fun p => ('/' :: p.1, p.2))
    | 'b' => (parseStringBody rest).map (fun p => ('\x08' :: p.1, p.2))
    | 'f' => (parseStringBody rest).map (fun p => ('\x0c' :: p.1, p.2))
    | 'n' => (parseStringBody rest).map (fun p => ('\n' :: p.1, p.2))
    | 'r' => (parseStringBody rest).map (fun p => ('\r' :: p.1, p.2))
    | 't' => (parseStringBody rest).map (fun p => ('\t' :: p.1, p.2))
    | 'u' =>
      match rest with
      | h1 :: h2 :: h3 :: h4 :: rest' =>
        match hexVal h1, hexVal h2, hexVal h3, hexVal h4 with
        | some a, some b, some c, some d =>
          (parseStringBody rest').map
            (fun p => (Char.ofNat (a * 4096 + b * 256 + c * 16 + d) :: p.1, p.2))
        | _, _, _, _ => none
      | _ => none
    | _ => none
  | c :: rest =>
    if c.toNat < 32 then none
    else (parseStringBody rest).map (fun p => (c :: p.1, p.2))

/-- Optional exponent part of a JSON number; `acc` is the literal so far. -/
def parseExpPart (acc : List Char) (cs : List Char) : Option (List Char × List Char) :=
  match cs with
  | c :: rest =>
    if c = 'e' ∨ c = 'E' then
      let sgn : List Char × List Char :=
        match rest with
        | s :: r => if s = '+' ∨ s = '-' then ([s], r) else ([], rest)
        | [] => ([], rest)
      let ds := sgn.2.takeWhile Char.isDigit
      if ds = [] then none
      else some (acc ++ c :: sgn.1 ++ ds, sgn.2.dropWhile Char.isDigit)
    else some (acc, cs)
  | [] => some (acc, cs)

/-- Optional fraction part then exponent part of a JSON number. -/
def parseFracExp (acc : List Char) (cs : List Char) : Option (List Char × List Char) :=
  match cs with
  | '.' :: rest =>
    let ds := rest.takeWhile Char.isDigit
    if ds = [] then none
    else parseExpPart (acc ++ '.' :: ds) (rest.dropWhile Char.isDigit)
  | _ => parseExpPart acc cs

/-- JSON number literal: `-? (0 | [1-9][0-9]*) frac? exp?`; returns the
literal text and the remaining input. -/
def parseNumber (cs : List Char) : Option (List Char × List Char) :=
  let p : List Char × List Char :=
    match cs with
    | '-' :: r => (['-'], r)
    | _ => ([], cs)
  match p.2 with
  | '0' :: r => parseFracExp (p.1 ++ ['0']) r
  | c :: r =>
    if c.isDigit then parseFracExp (p.1 ++ c :: r.takeWhile Char.isDigit) (r.dropWhile Char.isDigit)
    else none
  | [] => none

mutual

/-- One JSON value starting at the given input (no leading whitespace). -/
def parseValue : Nat → List Char → Option (Json × List Char)
  | 0, _ => none
  | _ + 1, [] => none
  | fuel + 1, c :: rest =>
    if c = '{' then
      match skipWs rest with
      | '}' :: r => some (.obj [], r)
      | cs' => (parseMembers fuel cs').map (fun p => (.obj p.1, p.2))
    else if c = '[' then
      match skipWs rest with
      | ']' :: r => some (.arr [], r)
      | cs' => (parseElems fuel cs').map (fun p => (.arr p.1, p.2))
    else if c = '"' then
      (parseStringBody rest).map (fun p => (.str (String.mk p.1), p.2))
    else if c = 't' then
      match rest with
      | 'r' :: 'u' :: 'e' :: r => some (.bool true, r)
      | _ => none
    else if c = 'f' then
      match rest with
      | 'a' :: 'l' :: 's' :: 'e' :: r => some (.bool false, r)
      | _ => none
    else if c = 'n' then
      match rest with
      | 'u' :: 'l' :: 'l' :: r => some (.null, r)
      | _ => none
    else if c = '-' ∨ c.isDigit then
      (parseNumber (c :: rest)).map (fun p => (.num (String.mk p.1), p.2))
    else none

/-- Members of a JSON object, positioned at a key; consumes the closing
brace. -/
def parseMembers : Nat → List Char → Option (List (String × Json) × List Char)
  | 0, _ => none
  | fuel + 1, cs =>
    match cs with
    | '"' :: rest =>
      match parseStringBody rest with
      | none => none
      | some (key, r1) =>
        match skipWs r1 with
        | ':' :: r2 =>
          match parseValue fuel (skipWs r2) with
          | none => none
          | some (v, r3) =>
            match skipWs r3 with
            | ',' :: r4 =>
              (parseMembers fuel (skipWs r4)).map
                (fun p => ((String.mk key, v) :: p.1, p.2))
            | '}' :: r4 => some ([(String.mk key, v)], r4)
            | _ => none
        | _ => none
    | _ => none

/-- Elements of a JSON array, positioned at a value; consumes the closing
bracket. -/
def parseElems : Nat → List Char → Option (List Json × List Char)
  | 0, _ => none
  | fuel + 1, cs =>
    match parseValue fuel cs with
    | none => none
    | some (v, r1) =>
      match skipWs r1 with
      | ',' :: r2 => (parseElems fuel (skipWs r2)).map (fun p => (v :: p.1, p.2))
      | ']' :: r2 => some ([v], r2)
      | _ => none

end

/-- `JSON.parse` on a character list: one value surrounded by whitespace.
The fuel is generous: parsing consumes at least one character per two fuel
units, so `2 * length + 2` never runs out on accepted input. -/
def parseJson (cs : List Char) : Option Json :=
  match parseValue (2 * cs.length + 2) (skipWs cs) with
  | some (v, rest) => if skipWs rest = [] then some v else none
  | none => none

/-- `JSON.parse` on a string. -/
def parseJsonStr (s : String) : Option Json := parseJson s.toList

/-- The backtick character (written by code point). -/
def btick : Char := Char.ofNat 96

/-- The seven characters removed by the fence rewrite. -/
def fenceTag : List Char := "```json".toList

def ltrimList (cs : List Char) : List Char := cs.dropWhile isWs

def rtrimList (cs : List Char) : List Char := (cs.reverse.dropWhile isWs).reverse

/-- `content.trim()`. -/
def trimList (cs : List Char) : List Char := rtrimList (ltrimList cs)

/-- The rewrite `replace(fence-json-regex, empty)`: erase the leftmost
occurrence of the fence tag together with the whitespace run after it. -/
def stripFenceJson : List Char → List Char
  | [] => []
  | c :: rest =>
    if fenceTag.isPrefixOf (c :: rest) then skipWs ((c :: rest).drop 7)
    else c :: stripFenceJson rest

/-- The rewrite `replace(trailing-fence-regex, empty)`: if the text ends in
three backticks, erase them and the whitespace run before them. -/
def stripTrailingFence (cs : List Char) : List Char :=
  if ("```".toList).isPrefixOf cs.reverse then ((cs.reverse.drop 3).dropWhile isWs).reverse
  else cs

/-- `jsonString.match(brace-regex)`: the greedy match runs from the first
opening brace to the last closing brace, when a closing brace follows the
first opening one. -/
def jsonBraceMatch (cs : List Char) : Option (List Char) :=
  if (((cs.dropWhile (fun c => !(c = '{'))).reverse.dropWhile (fun c => !(c = '}'))).reverse).isEmpty
  then none
  else some (((cs.dropWhile (fun c => !(c = '{'))).reverse.dropWhile (fun c => !(c = '}'))).reverse)

/-- The candidate string handed to `JSON.parse`: trim, erase fence tag,
erase trailing fence, then keep the brace match when there is one. -/
def extractJsonList (cs : List Char) : List Char :=
  (jsonBraceMatch (stripTrailingFence (stripFenceJson (trimList cs)))).getD
    (stripTrailingFence (stripFenceJson (trimList cs)))

/-- The placeholder line item of the receipt fallback. -/
def fallbackReceiptItem : Json :=
  Json.obj [("name", .str "Item from receipt"), ("quantity", .num "1"),
    ("unit", .str "item"), ("price", .num "0"), ("category", .str "Unknown")]

/-- The fallback object synthesized when the model text cannot be parsed;
`today` models `new Date().toLocaleDateString()`. -/
def fallbackData (today ty : String) : Json :=
  if ty = "receipt" then
    Json.obj [("store", .str "Receipt Detected"), ("date", .str today),
      ("items", .arr [fallbackReceiptItem]), ("total", .num "0")]
  else
    Json.obj [("meal_name", .str "Meal from photo"),
      ("ingredients", .arr [.str "food item"]),
      ("estimated_portions", Json.obj [("food item", .num "0.5")])]

/-- The response normalizer on a character list: parse the extracted
candidate, fall back on parse failure. -/
def normalizeList (today ty : String) (cs : List Char) : Json :=
  match parseJson (extractJsonList cs) with
  | some v => v
  | none => fallbackData today ty

/-- The response normalizer (lines 403 to 449 of the handler). -/
def normalizeContent (today ty content : String) : Json :=
  normalizeList today ty content.toList

/-- One character of the base64 alphabet (the regex class excludes the
padding character). -/
def isB64Char (c : Char) : Bool := c.isAlphanum || c = '+' || c = '/'

/-- The regex test `[A-Za-z0-9+/]* ={0,2}` anchored at both ends. -/
def b64BodyOk (r : List Char) : Bool :=
  (r.reverse.takeWhile (fun c => (c = '=' : Bool))).length ≤ 2 &&
    ((r.reverse.dropWhile (fun c => (c = '=' : Bool))).reverse).all isB64Char

/-- Stripping the optional data-URL prefix `data:image/<subtype>;base64,`
(lowercase subtype, one or more letters); the text is returned unchanged
when the prefix shape is absent. -/
def stripDataUrlPrefix (cs : List Char) : List Char :=
  if ("data:image/".toList).isPrefixOf cs then
    let rest := cs.drop 11
    let letters := rest.takeWhile (fun c => 'a' ≤ c && c ≤ 'z')
    let after := rest.dropWhile (fun c => 'a' ≤ c && c ≤ 'z')
    if letters ≠ [] && (";base64,".toList).isPrefixOf after then after.drop 8
    else cs
  else cs

/-- `isValidBase64Image` (the helper at the bottom of the source file). -/
def isValidBase64Image (s : String) : Bool :=
  let r := stripDataUrlPrefix s.toList
  b64BodyOk r && decide (100 ≤ r.length)

/-- The canned payload of the test sentinel. -/
def mockData (today ty : String) : Json :=
  if ty = "receipt" then
    Json.obj [("store", .str "Test Store"), ("date", .str today),
      ("items", .arr [Json.obj [("name", .str "Test Item"), ("quantity", .num "1"),
        ("unit", .str "piece"), ("price", .num "1"), ("category", .str "Test")]]),
      ("total", .num "1")]
  else
    Json.obj [("meal_name", .str "Test Meal"),
      ("ingredients", .arr [.str "test ingredient"]),
      ("estimated_portions", Json.obj [("test ingredient", .num "0.5")])]

/-- The receipt prompt (lines 305 to 320 of the source). -/
def receiptPrompt : String :=
  "Analyze this grocery receipt image and extract the items. Return ONLY a JSON object with this exact structure (no extra text):\n      \x7b\n        \"store\": \"store name or Unknown Store\",\n        \"date\": \"date from receipt or today's date\",\n        \"items\": [\n          \x7b\n            \"name\": \"item name\",\n            \"quantity\": number,\n            \"unit\": \"pieces/lbs/gallons/etc\",\n            \"price\": number,\n            \"category\": \"Produce/Dairy/Meat/Bakery/Pantry/Household/etc\"\n          \x7d\n        ],\n        \"total\": number\n      \x7d\n      If you can't read specific details, make reasonable estimates. Always return valid JSON."

/-- The meal prompt (lines 321 to 331 of the source). -/
def mealPrompt : String :=
  "Analyze this meal photo and identify the ingredients. Return ONLY a JSON object with this exact structure (no extra text):\n      \x7b\n        \"meal_name\": \"brief description of the meal\",\n        \"ingredients\": [\"ingredient1\", \"ingredient2\", \"ingredient3\"],\n        \"estimated_portions\": \x7b\n          \"ingredient1\": 0.5,\n          \"ingredient2\": 1.0,\n          \"ingredient3\": 0.25\n        \x7d\n      \x7d\n      Estimate reasonable portion sizes (0.1 to 2.0). Always return valid JSON."

/-- Prompt selection: the type discriminator is compared against the one
literal `receipt`; everything else selects the meal prompt. -/
def promptFor (ty : String) : String :=
  if ty = "receipt" then receiptPrompt else mealPrompt

/-- `errorData?.error?.message || fallback text` of the gateway-error
branch (a non-string message is coerced by JS; no claim depends on that,
so it is folded into the fallback text). -/
def upstreamErrMsg (body : Json) : String :=
  match body.getField "error" with
  | some e =>
    match e.getField "message" with
    | some (Json.str m) => if m = "" then "Unknown error" else m
    | _ => "Unknown error"
  | none => "Unknown error"

/-- The POST body, with the two fields the handler reads.  A JS falsy check
on a string field holds exactly for an absent or empty field, so each field
is an optional string. -/
structure RequestBody where
  image : Option String
  type : Option String
deriving DecidableEq

/-- Read-only per-request configuration: the upstream credential (empty
models an unset variable) and the current date used by the canned and
fallback payloads. -/
structure Env where
  openaiApiKey : String
  today : String
deriving DecidableEq

/-- The single upstream chat-completion response, passed to the handler as
an explicit input: HTTP ok flag and status, the parsed error body of a
failed call, and `choices[0].message.content` (absent or empty is falsy). -/
structure GatewayResponse where
  ok : Bool
  status : Nat
  errorBody : Json
  content : Option String
deriving DecidableEq

/-- The JSON body the handler sends, with its status code.  The no-content
branch also attaches the raw upstream envelope under a separate key; no
claim mentions it, so it is not modelled. -/
structure HttpResponse where
  status : Nat
  success : Bool
  data : Option Json
  error : Option String
  details : Option Json
deriving DecidableEq

def mkErr (st : Nat) (msg : String) : HttpResponse := ⟨st, false, none, some msg, none⟩

def mkOk (v : Json) : HttpResponse := ⟨200, true, some v, none, none⟩

def mkGwErr (gw : GatewayResponse) : HttpResponse :=
  ⟨500, false, none,
    some ("OpenAI API error (" ++ toString gw.status ++ "): " ++ upstreamErrMsg gw.errorBody),
    some gw.errorBody⟩

/-- The POST handler (the CORS headers, preflight and method dispatch above
it are boilerplate outside every claim).  Branches in source order: field
presence, test sentinel, credential, base64 guard, gateway failure, missing
content, normalization. -/
def handlePost (body : RequestBody) (env : Env) (gw : GatewayResponse) : HttpResponse :=
  if body.image.getD "" = "" then mkErr 400 "Missing required field: image"
  else if body.type.getD "" = "" then mkErr 400 "Missing required field: type"
  else if body.image.getD "" = "test" then mkOk (mockData env.today (body.type.getD ""))
  else if env.openaiApiKey = "" then mkErr 500 "OpenAI API key not configured on server"
  else if isValidBase64Image (body.image.getD "") = false then
    mkErr 400 "Invalid image format. Please provide a valid base64 image."
  else if gw.ok = false then mkGwErr gw
  else if gw.content.getD "" = "" then mkErr 500 "No content received from AI"
  else mkOk (normalizeContent env.today (body.type.getD "") (gw.content.getD ""))

/-- Shape validation as the spec states it (and as the earlier draft coded
it): a receipt needs an `items` array, a meal needs an `ingredients`
array.  The embedded handler never runs it; it is defined to state claims
about its absence. -/
def hasArrayField (v : Json) (k : String) : Bool :=
  match v.getField k with
  | some (Json.arr _) => true
  | _ => false

def shapeOk (ty : String) (v : Json) : Bool :=
  if ty = "receipt" then hasArrayField v "items" else hasArrayField v "ingredients"

/-- Occurrence of the fence tag as a contiguous substring (mirrors the
leftmost-match search of `stripFenceJson`). -/
def containsFence : List Char → Bool
  | [] => false
  | c :: rest => fenceTag.isPrefixOf (c :: rest) || containsFence rest

/-- Contiguous-substring test on character lists. -/
def listContains (needle : List Char) : List Char → Bool
  | [] => needle.isEmpty
  | c :: rest => needle.isPrefixOf (c :: rest) || listContains needle rest

/-- Substring test used to state that an error message names a field. -/
def strContains (needle hay : String) : Bool :=
  listContains needle.toList hay.toList

/-! ## List helper lemmas -/

theorem dropWhile_append_head {p : Char → Bool} {xs ys : List Char} {c : Char}
    (hy : ys.head? = some c) (hc : p c = false) :
    (xs ++ ys).dropWhile p = xs.dropWhile p ++ ys := by
  induction xs with
  | nil =>
    cases ys with
    | nil => simp at hy
    | cons d t =>
      simp only [List.head?_cons, Option.some.injEq] at hy
      subst hy
      simp [List.dropWhile_cons, hc]
  | cons a xs ih =>
    simp only [List.cons_append, List.dropWhile_cons]
    by_cases h : p a
    · simp [h, ih]
    · simp [h]

theorem dropWhile_append_all {p : Char → Bool} {xs ys : List Char}
    (h : xs.all p = true) : (xs ++ ys).dropWhile p = ys.dropWhile p := by
  induction xs with
  | nil => simp
  | cons a t ih =>
    simp only [List.all_cons, Bool.and_eq_true] at h
    simp [List.dropWhile_cons_of_pos h.1, ih h.2]

theorem dropWhile_nil_of_all {p : Char → Bool} {xs : List Char}
    (h : xs.all p = true) : xs.dropWhile p = [] := by
  have h2 : (xs ++ ([] : List Char)).dropWhile p = ([] : List Char).dropWhile p :=
    dropWhile_append_all h
  simpa using h2

theorem dropWhile_self_of_head {p : Char → Bool} {l : List Char} {c : Char}
    (h : l.head? = some c) (hc : p c = false) : l.dropWhile p = l := by
  cases l with
  | nil => simp at h
  | cons d t =>
    simp only [List.head?_cons, Option.some.injEq] at h
    subst h
    simp [List.dropWhile_cons, hc]

theorem dropWhile_head_not {p : Char → Bool} {l : List Char} {c : Char}
    (h : (l.dropWhile p).head? = some c) : p c = false := by
  induction l with
  | nil => simp at h
  | cons a t ih =>
    rw [List.dropWhile_cons] at h
    by_cases ha : p a
    · rw [if_pos ha] at h
      exact ih h
    · rw [if_neg ha] at h
      simp only [List.head?_cons, Option.some.injEq] at h
      subst h
      simpa using ha

theorem takeWhile_append_all {p : Char → Bool} {xs ys : List Char}
    (h : xs.all p = true) : (xs ++ ys).takeWhile p = xs ++ ys.takeWhile p := by
  induction xs with
  | nil => simp
  | cons a t ih =>
    simp only [List.all_cons, Bool.and_eq_true] at h
    simp [List.takeWhile_cons_of_pos h.1, ih h.2]

theorem takeWhile_nil_of_head {p : Char → Bool} {l : List Char} {c : Char}
    (h : l.head? = some c) (hc : p c = false) : l.takeWhile p = [] := by
  cases l with
  | nil => simp at h
  | cons d t =>
    simp only [List.head?_cons, Option.some.injEq] at h
    subst h
    simp [List.takeWhile_cons, hc]

theorem all_dropWhile {p q : Char → Bool} {l : List Char} (h : l.all p = true) :
    (l.dropWhile q).all p = true := by
  induction l with
  | nil => simp
  | cons a t ih =>
    simp only [List.all_cons, Bool.and_eq_true] at h
    rw [List.dropWhile_cons]
    by_cases hq : q a
    · simp [hq, ih h.2]
    · simp [hq, h.1, h.2]

theorem all_rtrim {p : Char → Bool} {l : List Char} (h : l.all p = true) :
    (rtrimList l).all p = true := by
  unfold rtrimList
  rw [List.all_reverse]
  exact all_dropWhile (by rwa [List.all_reverse])

theorem ltrim_cons_of_neg {c : Char} {l : List Char} (h : isWs c = false) :
    ltrimList (c :: l) = c :: l := by
  simp [ltrimList, List.dropWhile_cons, h]

theorem rtrim_of_getLast {l : List Char} {c : Char} (h : l.getLast? = some c)
    (hc : isWs c = false) : rtrimList l = l := by
  unfold rtrimList
  have h2 : l.reverse.dropWhile isWs = l.reverse := by
    refine dropWhile_self_of_head (c := c) ?_ hc
    rw [List.head?_reverse]; exact h
  rw [h2, List.reverse_reverse]

theorem trim_of_ends {l : List Char} {c d : Char} (hh : l.head? = some c)
    (hcw : isWs c = false) (hl : l.getLast? = some d) (hdw : isWs d = false) :
    trimList l = l := by
  cases l with
  | nil => simp at hh
  | cons a t =>
    simp only [List.head?_cons, Option.some.injEq] at hh
    subst hh
    unfold trimList
    rw [ltrim_cons_of_neg hcw]
    exact rtrim_of_getLast hl hdw

theorem isPrefixOf_cons_ne_head {pat : List Char} {a c : Char} {t l : List Char}
    (hpat : pat = a :: t) (h : ¬(c = a)) : pat.isPrefixOf (c :: l) = false := by
  subst hpat
  rw [List.isPrefixOf_cons₂]
  have hne : (a == c) = false := beq_eq_false_iff_ne.mpr (fun hh => h hh.symm)
  rw [hne, Bool.false_and]

theorem isPrefixOf_self_append (l t : List Char) : l.isPrefixOf (l ++ t) = true := by
  simp [List.isPrefixOf_iff_prefix]

theorem isPrefixOf_append_of_le {pat l : List Char} (ys : List Char)
    (h : pat.length ≤ l.length) :
    pat.isPrefixOf (l ++ ys) = pat.isPrefixOf l := by
  induction pat generalizing l with
  | nil => simp
  | cons a as ih =>
    cases l with
    | nil => simp at h
    | cons b bs =>
      simp only [List.cons_append, List.isPrefixOf_cons₂]
      rw [ih (by simpa using h)]

theorem mem_pat_of_isPrefixOf_append {pat : List Char} (l ys : List Char)
    (h : pat.isPrefixOf (l ++ ys) = true) (hlen : l.length ≤ pat.length)
    {x : Char} (hx : x ∈ l) : x ∈ pat := by
  have hp : pat <+: l ++ ys := List.isPrefixOf_iff_prefix.mp h
  have hl : l <+: l ++ ys := List.prefix_append l ys
  exact (List.prefix_of_prefix_length_le hl hp hlen).subset hx

/-! ## Fence-tag lemmas -/

theorem fenceTag_cons : fenceTag = btick :: "``json".toList := by decide

theorem containsFence_cons (c : Char) (rest : List Char) :
    containsFence (c :: rest) = (fenceTag.isPrefixOf (c :: rest) || containsFence rest) := rfl

theorem not_containsFence_of_no_btick {l : List Char}
    (h : l.all (fun c => !(c = btick)) = true) : containsFence l = false := by
  induction l with
  | nil => rfl
  | cons a t ih =>
    simp only [List.all_cons, Bool.and_eq_true] at h
    have h1 : fenceTag.isPrefixOf (a :: t) = false :=
      isPrefixOf_cons_ne_head fenceTag_cons (by simpa using h.1)
    simp [containsFence, h1, ih h.2]

theorem containsFence_append_no_btick {xs ys : List Char}
    (h : xs.all (fun c => !(c = btick)) = true) :
    containsFence (xs ++ ys) = containsFence ys := by
  induction xs with
  | nil => simp
  | cons a t ih =>
    simp only [List.all_cons, Bool.and_eq_true] at h
    have h1 : fenceTag.isPrefixOf (a :: (t ++ ys)) = false :=
      isPrefixOf_cons_ne_head fenceTag_cons (by simpa using h.1)
    simp [containsFence, h1, ih h.2]

theorem containsFence_append_of_getLast {ys : List Char} {c : Char}
    (hys : containsFence ys = false) (hc : c ∉ fenceTag) : ∀ {xs : List Char},
    containsFence xs = false → xs.getLast? = some c → containsFence (xs ++ ys) = false := by
  intro xs
  induction xs with
  | nil => intro _ hlast; simp at hlast
  | cons a t ih =>
    intro hxs hlast
    have hxs' : fenceTag.isPrefixOf (a :: t) = false ∧ containsFence t = false := by
      have : (fenceTag.isPrefixOf (a :: t) || containsFence t) = false := hxs
      simpa [Bool.or_eq_false_iff] using this
    have hfirst : fenceTag.isPrefixOf (a :: (t ++ ys)) = false := by
      by_cases hlen : fenceTag.length ≤ (a :: t).length
      · have := isPrefixOf_append_of_le ys hlen
        simp only [List.cons_append] at this
        rw [this]
        exact hxs'.1
      · cases hpre : fenceTag.isPrefixOf (a :: (t ++ ys)) with
        | false => rfl
        | true =>
          have hmem : c ∈ fenceTag := by
            refine mem_pat_of_isPrefixOf_append (a :: t) ys ?_
              (Nat.le_of_lt (Nat.lt_of_not_le hlen)) (List.mem_of_getLast?_eq_some hlast)
            simpa [List.cons_append] using hpre
          exact absurd hmem hc
    cases t with
    | nil =>
      simp only [List.cons_append, List.nil_append] at hfirst ⊢
      rw [containsFence_cons, hfirst, hys]
      rfl
    | cons b t' =>
      have hlast' : (b :: t').getLast? = some c := by
        rwa [List.getLast?_cons_cons] at hlast
      have hrest := ih hxs'.2 hlast'
      simp only [List.cons_append] at hfirst hrest ⊢
      rw [containsFence_cons, hfirst, hrest]
      rfl

theorem stripFenceJson_id_of_not_contains {l : List Char}
    (h : containsFence l = false) : stripFenceJson l = l := by
  induction l with
  | nil => rfl
  | cons a t ih =>
    have h' : fenceTag.isPrefixOf (a :: t) = false ∧ containsFence t = false := by
      have : (fenceTag.isPrefixOf (a :: t) || containsFence t) = false := h
      simpa [Bool.or_eq_false_iff] using this
    simp [stripFenceJson, h'.1, ih h'.2]

theorem stripFenceJson_fence_prefix (Y : List Char) :
    stripFenceJson (fenceTag ++ Y) = skipWs Y := by
  have hcons : fenceTag ++ Y = btick :: ("``json".toList ++ Y) := by
    rw [fenceTag_cons]; rfl
  have hpre : fenceTag.isPrefixOf (btick :: ("``json".toList ++ Y)) = true := by
    rw [← hcons]; exact isPrefixOf_self_append fenceTag Y
  rw [hcons]
  rw [stripFenceJson, if_pos hpre]
  rw [← hcons]
  have h7 : fenceTag.length = 7 := by decide
  rw [List.drop_left' h7]

theorem stripTrailingFence_id_of_last {l : List Char} {c : Char}
    (h : l.getLast? = some c) (hc : ¬(c = btick)) : stripTrailingFence l = l := by
  unfold stripTrailingFence
  have hr : l.reverse.head? = some c := by rw [List.head?_reverse]; exact h
  cases hrev : l.reverse with
  | nil => rw [hrev] at hr; simp at hr
  | cons d ds =>
    rw [hrev] at hr
    simp only [List.head?_cons, Option.some.injEq] at hr
    have hpf : ("```".toList).isPrefixOf (d :: ds) = false := by
      rw [hr]
      exact isPrefixOf_cons_ne_head (by decide : "```".toList = btick :: "``".toList) hc
    rw [hpf]
    simp

/-! ## Brace-match lemmas -/

theorem jsonBraceMatch_decomp (pre m post : List Char)
    (hpre : pre.all (fun c => !(c = '{')) = true)
    (hpost : post.all (fun c => !(c = '}')) = true)
    (hm1 : m.head? = some '{') (hm2 : m.getLast? = some '}') :
    jsonBraceMatch (pre ++ m ++ post) = some m := by
  unfold jsonBraceMatch
  have hT : (pre ++ m ++ post).dropWhile (fun c => !(c = '{')) = m ++ post := by
    rw [List.append_assoc]
    rw [dropWhile_append_all hpre]
    refine dropWhile_self_of_head (c := '{') ?_ ?_
    · cases m with
      | nil => simp at hm1
      | cons a t =>
        simp only [List.head?_cons, Option.some.injEq] at hm1
        subst hm1
        simp
    · simp
  have hrev : (m ++ post).reverse.dropWhile (fun c => !(c = '}')) = m.reverse := by
    rw [List.reverse_append]
    rw [dropWhile_append_all (by rwa [List.all_reverse])]
    refine dropWhile_self_of_head (c := '}') ?_ ?_
    · rw [List.head?_reverse]; exact hm2
    · simp
  rw [hT, hrev]
  simp only [List.reverse_reverse]
  have hne : m.isEmpty = false := by
    cases m with
    | nil => simp at hm1
    | cons a t => rfl
  simp [hne]

theorem jsonBraceMatch_spec {cs m : List Char} (h : jsonBraceMatch cs = some m) :
    ∃ pre post, cs = pre ++ m ++ post ∧ pre.all (fun c => !(c = '{')) = true ∧
      post.all (fun c => !(c = '}')) = true ∧ m.head? = some '{' ∧
      m.getLast? = some '}' := by
  have hsplit : ∀ l : List Char, ∀ r : Char → Bool, l = l.takeWhile r ++ l.dropWhile r :=
    fun l r => (List.takeWhile_append_dropWhile r l).symm
  unfold jsonBraceMatch at h
  by_cases hE :
      ((((cs.dropWhile fun c => !(c = '{')).reverse.dropWhile fun c => !(c = '}')).reverse).isEmpty
        = true)
  · rw [if_pos hE] at h; exact absurd h (by simp)
  · rw [if_neg hE] at h
    simp only [Option.some.injEq] at h
    set p : Char → Bool := fun c => !(c = '{') with hp
    set q : Char → Bool := fun c => !(c = '}') with hq
    set t : List Char := cs.dropWhile p with ht
    rw [h] at hE
    have hmne : m ≠ [] := fun hnil => hE (by rw [hnil]; rfl)
    have h2 : t = m ++ (t.reverse.takeWhile q).reverse := by
      calc t = t.reverse.reverse := (List.reverse_reverse t).symm
      _ = (t.reverse.takeWhile q ++ t.reverse.dropWhile q).reverse := by
            rw [← hsplit t.reverse q]
      _ = (t.reverse.dropWhile q).reverse ++ (t.reverse.takeWhile q).reverse := by
            rw [List.reverse_append]
      _ = m ++ (t.reverse.takeWhile q).reverse := by rw [h]
    refine ⟨cs.takeWhile p, (t.reverse.takeWhile q).reverse, ?_, ?_, ?_, ?_, ?_⟩
    · calc cs = cs.takeWhile p ++ cs.dropWhile p := hsplit cs p
      _ = cs.takeWhile p ++ t := by rw [← ht]
      _ = cs.takeWhile p ++ (m ++ (t.reverse.takeWhile q).reverse) := by rw [← h2]
      _ = cs.takeWhile p ++ m ++ (t.reverse.takeWhile q).reverse :=
            (List.append_assoc _ _ _).symm
    · exact List.all_takeWhile
    · rw [List.all_reverse]; exact List.all_takeWhile
    · have htm : t.head? = m.head? := by
        rw [h2]
        cases hm0c : m with
        | nil => exact absurd hm0c hmne
        | cons a r => rfl
      obtain ⟨a, ha⟩ : ∃ a, m.head? = some a := by
        cases hm0c : m with
        | nil => exact absurd hm0c hmne
        | cons a r => exact ⟨a, rfl⟩
      have hpa : p a = false := by
        refine dropWhile_head_not (p := p) (l := cs) ?_
        rw [← ht, htm, ha]
      have ha2 : a = '{' := by
        rw [hp] at hpa
        simpa using hpa
      rw [ha, ha2]
    · have hrm : m.reverse = t.reverse.dropWhile q := by rw [← h, List.reverse_reverse]
      obtain ⟨a, ha⟩ : ∃ a, m.getLast? = some a := by
        cases hh : m.getLast? with
        | none => rw [List.getLast?_eq_none_iff] at hh; exact absurd hh hmne
        | some a => exact ⟨a, rfl⟩
      have hqa : q a = false := by
        refine dropWhile_head_not (p := q) (l := t.reverse) ?_
        rw [← hrm, List.head?_reverse, ha]
      have ha2 : a = '}' := by
        rw [hq] at hqa
        simpa using hqa
      rw [ha, ha2]

/-! ## Normalizer pipeline lemmas -/

theorem head?_append_left {l : List Char} (r : List Char) {c : Char}
    (h : l.head? = some c) : (l ++ r).head? = some c := by
  rw [List.head?_append, h]
  rfl

theorem extractJsonList_clean {cs : List Char}
    (h1 : cs.head? = some '{') (h2 : cs.getLast? = some '}')
    (hf : containsFence cs = false) : extractJsonList cs = cs := by
  have htrim : trimList cs = cs := trim_of_ends h1 (by decide) h2 (by decide)
  have hsf : stripFenceJson cs = cs := stripFenceJson_id_of_not_contains hf
  have hst : stripTrailingFence cs = cs :=
    stripTrailingFence_id_of_last h2 (by decide)
  have hbm : jsonBraceMatch cs = some cs := by
    have := jsonBraceMatch_decomp [] cs [] (by simp) (by simp) h1 h2
    simpa using this
  unfold extractJsonList
  rw [htrim, hsf, hst, hbm]
  rfl

theorem normalizeList_clean (d t : String) {cs : List Char} {o : Json}
    (h1 : cs.head? = some '{') (h2 : cs.getLast? = some '}')
    (hf : containsFence cs = false) (hp : parseJson cs = some o) :
    normalizeList d t cs = o := by
  unfold normalizeList
  rw [extractJsonList_clean h1 h2 hf, hp]

/-- The opening fence with a json tag. -/
def fenceOpenJson : List Char := "```json\n".toList

/-- The opening fence without a tag. -/
def fenceOpenPlain : List Char := "```\n".toList

/-- The closing fence. -/
def fenceClose : List Char := "\n```".toList

theorem stripTrailingFence_close {x : List Char} (h : x.getLast? = some '}') :
    stripTrailingFence (x ++ fenceClose) = x := by
  have hrev2 : (x ++ fenceClose).reverse = btick :: btick :: btick :: '\n' :: x.reverse := by
    rw [List.reverse_append,
      (by decide : fenceClose.reverse = btick :: btick :: btick :: '\n' :: ([] : List Char))]
    rfl
  unfold stripTrailingFence
  rw [hrev2]
  have hpf : ("```".toList).isPrefixOf (btick :: btick :: btick :: '\n' :: x.reverse) = true := by
    rw [(by decide : "```".toList = btick :: btick :: btick :: ([] : List Char))]
    simp [List.isPrefixOf_cons₂]
  rw [hpf]
  simp only [if_pos]
  have hd3 : (btick :: btick :: btick :: '\n' :: x.reverse).drop 3 = '\n' :: x.reverse := rfl
  rw [hd3, List.dropWhile_cons_of_pos (by decide)]
  rw [dropWhile_self_of_head (c := '}') (by rw [List.head?_reverse]; exact h) (by decide)]
  rw [List.reverse_reverse]

theorem extractJsonList_fenced_json {cs : List Char}
    (h1 : cs.head? = some '{') (h2 : cs.getLast? = some '}') :
    extractJsonList (fenceOpenJson ++ cs ++ fenceClose) = cs := by
  have hH : ((fenceOpenJson ++ cs) ++ fenceClose).head? = some btick :=
    head?_append_left _ (head?_append_left _ (by decide : fenceOpenJson.head? = some btick))
  have hL : ((fenceOpenJson ++ cs) ++ fenceClose).getLast? = some btick := by
    rw [List.getLast?_append, (by decide : fenceClose.getLast? = some btick)]
    rfl
  have htrim : trimList (fenceOpenJson ++ cs ++ fenceClose) =
      fenceOpenJson ++ cs ++ fenceClose :=
    trim_of_ends hH (by decide) hL (by decide)
  have hassoc : fenceOpenJson ++ cs ++ fenceClose =
      fenceTag ++ ('\n' :: (cs ++ fenceClose)) := by
    rw [(by decide : fenceOpenJson = fenceTag ++ ('\n' :: ([] : List Char)))]
    simp [List.append_assoc]
  have hstrip1 : stripFenceJson (fenceOpenJson ++ cs ++ fenceClose) = cs ++ fenceClose := by
    rw [hassoc, stripFenceJson_fence_prefix]
    unfold skipWs
    rw [List.dropWhile_cons_of_pos (by decide)]
    exact dropWhile_self_of_head (c := '{') (head?_append_left _ h1) (by decide)
  have hstrip2 : stripTrailingFence (cs ++ fenceClose) = cs := stripTrailingFence_close h2
  have hbm : jsonBraceMatch cs = some cs := by
    have := jsonBraceMatch_decomp [] cs [] (by simp) (by simp) h1 h2
    simpa using this
  unfold extractJsonList
  rw [htrim, hstrip1, hstrip2, hbm]
  rfl

theorem extractJsonList_fenced_plain {cs : List Char}
    (h1 : cs.head? = some '{') (h2 : cs.getLast? = some '}')
    (hf : containsFence cs = false) :
    extractJsonList (fenceOpenPlain ++ cs ++ fenceClose) = cs := by
  have hH : ((fenceOpenPlain ++ cs) ++ fenceClose).head? = some btick :=
    head?_append_left _ (head?_append_left _ (by decide : fenceOpenPlain.head? = some btick))
  have hL : ((fenceOpenPlain ++ cs) ++ fenceClose).getLast? = some btick := by
    rw [List.getLast?_append, (by decide : fenceClose.getLast? = some btick)]
    rfl
  have htrim : trimList (fenceOpenPlain ++ cs ++ fenceClose) =
      fenceOpenPlain ++ cs ++ fenceClose :=
    trim_of_ends hH (by decide) hL (by decide)
  have hin : containsFence (cs ++ fenceClose) = false :=
    containsFence_append_of_getLast
      (show containsFence fenceClose = false by decide)
      (show '}' ∉ fenceTag by decide) hf h2
  have hout : containsFence (fenceOpenPlain ++ cs ++ fenceClose) = false := by
    rw [List.append_assoc]
    exact containsFence_append_of_getLast hin
      (show '\n' ∉ fenceTag by decide)
      (show containsFence fenceOpenPlain = false by decide)
      (show fenceOpenPlain.getLast? = some '\n' by decide)
  have hstrip1 : stripFenceJson (fenceOpenPlain ++ cs ++ fenceClose) =
      fenceOpenPlain ++ cs ++ fenceClose := stripFenceJson_id_of_not_contains hout
  have hstrip2 : stripTrailingFence ((fenceOpenPlain ++ cs) ++ fenceClose) =
      fenceOpenPlain ++ cs := by
    refine stripTrailingFence_close ?_
    rw [List.getLast?_append, h2]
    rfl
  have hbm : jsonBraceMatch (fenceOpenPlain ++ cs) = some cs := by
    have := jsonBraceMatch_decomp fenceOpenPlain cs [] (by decide) (by simp) h1 h2
    simpa using this
  unfold extractJsonList
  rw [htrim, hstrip1, hstrip2, hbm]
  rfl

theorem extractJsonList_prose {cs u v : List Char}
    (h1 : cs.head? = some '{') (h2 : cs.getLast? = some '}')
    (hf : containsFence cs = false)
    (hub : u.all (fun c => !(c = btick)) = true)
    (huo : u.all (fun c => !(c = '{')) = true)
    (hvb : v.all (fun c => !(c = btick)) = true)
    (hvc : v.all (fun c => !(c = '}')) = true) :
    extractJsonList (u ++ cs ++ v) = cs := by
  have hcsv : (cs ++ v).head? = some '{' := head?_append_left _ h1
  have htrim : trimList (u ++ cs ++ v) = ltrimList u ++ cs ++ rtrimList v := by
    unfold trimList
    have hlt : ltrimList (u ++ cs ++ v) = ltrimList u ++ (cs ++ v) := by
      unfold ltrimList
      rw [List.append_assoc]
      exact dropWhile_append_head (c := '{') hcsv (by decide)
    rw [hlt]
    unfold rtrimList
    have hrv : (ltrimList u ++ (cs ++ v)).reverse =
        v.reverse ++ (cs.reverse ++ (ltrimList u).reverse) := by
      rw [List.reverse_append, List.reverse_append]
      rw [List.append_assoc]
    rw [hrv]
    rw [dropWhile_append_head (c := '}')
      (head?_append_left _ (by rw [List.head?_reverse]; exact h2)) (by decide)]
    rw [List.reverse_append, List.reverse_append, List.reverse_reverse,
      List.reverse_reverse]
  have hu' : (ltrimList u).all (fun c => !(c = btick)) = true := all_dropWhile hub
  have hu'o : (ltrimList u).all (fun c => !(c = '{')) = true := all_dropWhile huo
  have hv' : (rtrimList v).all (fun c => !(c = btick)) = true := all_rtrim hvb
  have hv'c : (rtrimList v).all (fun c => !(c = '}')) = true := all_rtrim hvc
  have hcf : containsFence (ltrimList u ++ cs ++ rtrimList v) = false := by
    rw [List.append_assoc, containsFence_append_no_btick hu']
    exact containsFence_append_of_getLast
      (not_containsFence_of_no_btick hv') (show '}' ∉ fenceTag by decide) hf h2
  have hstrip1 : stripFenceJson (ltrimList u ++ cs ++ rtrimList v) =
      ltrimList u ++ cs ++ rtrimList v := stripFenceJson_id_of_not_contains hcf
  have hstrip2 : stripTrailingFence (ltrimList u ++ cs ++ rtrimList v) =
      ltrimList u ++ cs ++ rtrimList v := by
    rcases hgl : (ltrimList u ++ cs ++ rtrimList v).getLast? with _ | c
    · exfalso
      rw [List.getLast?_eq_none_iff] at hgl
      have : cs = [] := by
        rcases List.append_eq_nil.mp hgl with ⟨h1', _⟩
        exact (List.append_eq_nil.mp h1').2
      rw [this] at h1
      simp at h1
    · refine stripTrailingFence_id_of_last hgl ?_
      rw [List.getLast?_append] at hgl
      rcases hvv : (rtrimList v).getLast? with _ | d
      · rw [hvv] at hgl
        simp only [Option.none_or] at hgl
        rw [List.getLast?_append, h2] at hgl
        simp only [Option.or_some, Option.some.injEq] at hgl
        rw [← hgl]
        decide
      · rw [hvv] at hgl
        simp only [Option.or_some, Option.some.injEq] at hgl
        have hd : d ∈ rtrimList v := List.mem_of_getLast?_eq_some hvv
        have := List.all_eq_true.mp hv' _ hd
        rw [← hgl]
        simpa using this
  have hbm : jsonBraceMatch (ltrimList u ++ cs ++ rtrimList v) = some cs :=
    jsonBraceMatch_decomp (ltrimList u) cs (rtrimList v) hu'o hv'c h1 h2
  unfold extractJsonList
  rw [htrim, hstrip1, hstrip2, hbm]
  rfl

/-! ## Handler path lemmas -/

theorem handlePost_noImage {b : RequestBody} {e : Env} {g : GatewayResponse}
    (h : b.image.getD "" = "") :
    handlePost b e g = mkErr 400 "Missing required field: image" := by
  unfold handlePost
  rw [if_pos h]

theorem handlePost_noType {b : RequestBody} {e : Env} {g : GatewayResponse}
    (hni : ¬(b.image.getD "" = "")) (h : b.type.getD "" = "") :
    handlePost b e g = mkErr 400 "Missing required field: type" := by
  unfold handlePost
  rw [if_neg hni, if_pos h]

theorem handlePost_test {b : RequestBody} {e : Env} {g : GatewayResponse} {t : String}
    (hbi : b.image = some "test") (hbt : b.type = some t) (h : ¬(t = "")) :
    handlePost b e g = mkOk (mockData e.today t) := by
  unfold handlePost
  rw [hbi, hbt]
  simp only [Option.getD_some]
  rw [if_neg (by decide : ¬(("test" : String) = "")), if_neg h]
  simp

theorem handlePost_noKey {b : RequestBody} {e : Env} {g : GatewayResponse} {i t : String}
    (hbi : b.image = some i) (hi0 : ¬(i = "")) (hit : ¬(i = "test"))
    (hbt : b.type = some t) (ht0 : ¬(t = "")) (hk : e.openaiApiKey = "") :
    handlePost b e g = mkErr 500 "OpenAI API key not configured on server" := by
  unfold handlePost
  rw [hbi, hbt]
  simp only [Option.getD_some]
  rw [if_neg hi0, if_neg ht0, if_neg hit, if_pos hk]

theorem handlePost_badImage {b : RequestBody} {e : Env} {g : GatewayResponse} {i t : String}
    (hbi : b.image = some i) (hi0 : ¬(i = "")) (hit : ¬(i = "test"))
    (hbt : b.type = some t) (ht0 : ¬(t = "")) (hk : ¬(e.openaiApiKey = ""))
    (hv : isValidBase64Image i = false) :
    handlePost b e g = mkErr 400 "Invalid image format. Please provide a valid base64 image." := by
  unfold handlePost
  rw [hbi, hbt]
  simp only [Option.getD_some]
  rw [if_neg hi0, if_neg ht0, if_neg hit, if_neg hk, if_pos hv]

theorem handlePost_gwError {b : RequestBody} {e : Env} {g : GatewayResponse} {i t : String}
    (hbi : b.image = some i) (hi0 : ¬(i = "")) (hit : ¬(i = "test"))
    (hbt : b.type = some t) (ht0 : ¬(t = "")) (hk : ¬(e.openaiApiKey = ""))
    (hv : isValidBase64Image i = true) (hgo : g.ok = false) :
    handlePost b e g = mkGwErr g := by
  unfold handlePost
  rw [hbi, hbt]
  simp only [Option.getD_some]
  rw [if_neg hi0, if_neg ht0, if_neg hit, if_neg hk, if_neg (by simp [hv]), if_pos hgo]

theorem handlePost_noContent {b : RequestBody} {e : Env} {g : GatewayResponse} {i t : String}
    (hbi : b.image = some i) (hi0 : ¬(i = "")) (hit : ¬(i = "test"))
    (hbt : b.type = some t) (ht0 : ¬(t = "")) (hk : ¬(e.openaiApiKey = ""))
    (hv : isValidBase64Image i = true) (hgo : ¬(g.ok = false))
    (hgc : g.content.getD "" = "") :
    handlePost b e g = mkErr 500 "No content received from AI" := by
  unfold handlePost
  rw [hbi, hbt]
  simp only [Option.getD_some]
  rw [if_neg hi0, if_neg ht0, if_neg hit, if_neg hk, if_neg (by simp [hv]), if_neg hgo,
    if_pos hgc]

theorem handlePost_normalizes {b : RequestBody} {e : Env} {g : GatewayResponse}
    {i t c : String}
    (hbi : b.image = some i) (hi0 : ¬(i = "")) (hit : ¬(i = "test"))
    (hbt : b.type = some t) (ht0 : ¬(t = "")) (hk : ¬(e.openaiApiKey = ""))
    (hv : isValidBase64Image i = true) (hgo : ¬(g.ok = false))
    (hgc : g.content = some c) (hc0 : ¬(c = "")) :
    handlePost b e g = mkOk (normalizeContent e.today t c) := by
  unfold handlePost
  rw [hbi, hbt, hgc]
  simp only [Option.getD_some]
  rw [if_neg hi0, if_neg ht0, if_neg hit, if_neg hk, if_neg (by simp [hv]), if_neg hgo,
    if_neg hc0]

/-! ## Concrete fixtures -/

/-- A syntactically valid base64 image string (120 alphabet characters). -/
def imgA : String := String.mk (List.replicate 120 'A')

/-- A configured environment. -/
def env0 : Env := ⟨"sk-test-key", "1/2/2030"⟩

/-- A successful gateway response carrying the given content. -/
def gwOk (c : String) : GatewayResponse := ⟨true, 200, Json.null, some c⟩

/-- A rate-limited upstream response. -/
def gw429 : GatewayResponse :=
  ⟨false, 429, Json.obj [("error", Json.obj [("message", Json.str "rate limited")])], none⟩

theorem mock_ne_fallback (d t : String) : ¬(mockData d t = fallbackData d t) := by
  unfold mockData fallbackData
  by_cases h : t = "receipt" <;> simp [h]

/-! ## Claims -/

/-- Claim C1: whenever the model text obtained from a successful upstream call
cannot be parsed as JSON after trimming, fence stripping and brace extraction,
the handler surfaces no error: it synthesizes the deterministic type-specific
fallback object (for receipt, one placeholder line item with price 0 and
category Unknown; for meal, a single placeholder ingredient at portion 0.5)
and responds HTTP 200 with success true. -/
theorem c1_parse_failure_fallback
    (b : RequestBody) (e : Env) (g : GatewayResponse) (i t c : String)
    (hbi : b.image = some i) (hi0 : ¬(i = "")) (hit : ¬(i = "test"))
    (hbt : b.type = some t) (ht0 : ¬(t = ""))
    (hk : ¬(e.openaiApiKey = ""))
    (hv : isValidBase64Image i = true)
    (hgo : g.ok = true) (hgc : g.content = some c) (hc0 : ¬(c = ""))
    (hparse : parseJson (extractJsonList c.toList) = none) :
    handlePost b e g = ⟨200, true, some (fallbackData e.today t), none, none⟩ ∧
    fallbackData e.today "receipt" = Json.obj [("store", .str "Receipt Detected"),
      ("date", .str e.today), ("items", .arr [fallbackReceiptItem]), ("total", .num "0")] ∧
    fallbackReceiptItem.getField "price" = some (.num "0") ∧
    fallbackReceiptItem.getField "category" = some (.str "Unknown") ∧
    (¬(t = "receipt") → fallbackData e.today t =
      Json.obj [("meal_name", .str "Meal from photo"),
        ("ingredients", .arr [.str "food item"]),
        ("estimated_portions", Json.obj [("food item", .num "0.5")])]) := by
  refine ⟨?_, by unfold fallbackData; rw [if_pos rfl], by decide, by decide, ?_⟩
  · rw [handlePost_normalizes hbi hi0 hit hbt ht0 hk hv (by simp [hgo]) hgc hc0]
    unfold normalizeContent normalizeList
    rw [hparse]
    rfl
  · intro ht
    unfold fallbackData
    rw [if_neg ht]

theorem c1_witness :
    handlePost ⟨some imgA, some "receipt"⟩ env0 (gwOk "I cannot read this image.") =
      ⟨200, true, some (fallbackData "1/2/2030" "receipt"), none, none⟩ :=
  (c1_parse_failure_fallback ⟨some imgA, some "receipt"⟩ env0
    (gwOk "I cannot read this image.") imgA "receipt" "I cannot read this image."
    rfl (by decide) (by decide) rfl (by decide) (by decide) (by decide)
    rfl rfl (by decide) (by decide)).1

/-- Claim C2 counterexample: with type receipt and model text that parses as a
JSON object without an `items` array, the handler returns that object as-is
with HTTP 200 — no shape validation runs, no fallback is synthesized.  The
claim's required-field check does not exist in the fallback-synthesizing
handler. -/
theorem c2_counterexample :
    handlePost ⟨some imgA, some "receipt"⟩ env0 (gwOk "\x7b\"foo\": 1\x7d") =
      ⟨200, true, some (Json.obj [("foo", Json.num "1")]), none, none⟩ ∧
    shapeOk "receipt" (Json.obj [("foo", Json.num "1")]) = false ∧
    ¬(Json.obj [("foo", Json.num "1")] = fallbackData "1/2/2030" "receipt") :=
  ⟨by decide, by decide, by decide⟩

/-- Claim C2 amended: the handler applies no shape validation at all: whenever
the extracted model text parses as JSON, the parsed value is returned
unchanged with HTTP 200 whether or not it carries the array field required for
the requested type; a shape failure is therefore never surfaced as an error,
but it also never triggers the fallback synthesis. -/
theorem c2_no_shape_validation
    (b : RequestBody) (e : Env) (g : GatewayResponse) (i t c : String) (v : Json)
    (hbi : b.image = some i) (hi0 : ¬(i = "")) (hit : ¬(i = "test"))
    (hbt : b.type = some t) (ht0 : ¬(t = ""))
    (hk : ¬(e.openaiApiKey = ""))
    (hv : isValidBase64Image i = true)
    (hgo : g.ok = true) (hgc : g.content = some c) (hc0 : ¬(c = ""))
    (hparse : parseJson (extractJsonList c.toList) = some v) :
    handlePost b e g = ⟨200, true, some v, none, none⟩ := by
  rw [handlePost_normalizes hbi hi0 hit hbt ht0 hk hv (by simp [hgo]) hgc hc0]
  unfold normalizeContent normalizeList
  rw [hparse]
  rfl

theorem c2_witness :
    handlePost ⟨some imgA, some "meal"⟩ env0 (gwOk "\x7b\"foo\": 1\x7d") =
      ⟨200, true, some (Json.obj [("foo", Json.num "1")]), none, none⟩ :=
  c2_no_shape_validation ⟨some imgA, some "meal"⟩ env0 (gwOk "\x7b\"foo\": 1\x7d")
    imgA "meal" "\x7b\"foo\": 1\x7d" (Json.obj [("foo", Json.num "1")])
    rfl (by decide) (by decide) rfl (by decide) (by decide) (by decide)
    rfl rfl (by decide) (by decide)

/-- Claim C3: a non-2xx upstream response yields a 500 response embedding the
upstream status and error body in its error text and details; a 2xx response
without usable content yields a 500 as well; neither path produces any data,
so no fallback is synthesized — and any response carrying the fallback object
as data can only arise from an ok gateway response with non-empty content. -/
theorem c3_gateway_failure :
    (∀ (b : RequestBody) (e : Env) (g : GatewayResponse) (i t : String),
      b.image = some i → ¬(i = "") → ¬(i = "test") → b.type = some t → ¬(t = "") →
      ¬(e.openaiApiKey = "") → isValidBase64Image i = true → g.ok = false →
      handlePost b e g = ⟨500, false, none,
        some ("OpenAI API error (" ++ toString g.status ++ "): " ++
          upstreamErrMsg g.errorBody),
        some g.errorBody⟩) ∧
    (∀ (b : RequestBody) (e : Env) (g : GatewayResponse) (i t : String),
      b.image = some i → ¬(i = "") → ¬(i = "test") → b.type = some t → ¬(t = "") →
      ¬(e.openaiApiKey = "") → isValidBase64Image i = true → g.ok = true →
      g.content.getD "" = "" →
      handlePost b e g = mkErr 500 "No content received from AI") ∧
    (∀ (b : RequestBody) (e : Env) (g : GatewayResponse) (t : String),
      b.type = some t →
      (handlePost b e g).data = some (fallbackData e.today t) →
      g.ok = true ∧ ¬(g.content.getD "" = "")) := by
  refine ⟨?_, ?_, ?_⟩
  · intro b e g i t hbi hi0 hit hbt ht0 hk hv hgo
    exact handlePost_gwError hbi hi0 hit hbt ht0 hk hv hgo
  · intro b e g i t hbi hi0 hit hbt ht0 hk hv hgo hgc
    exact handlePost_noContent hbi hi0 hit hbt ht0 hk hv (by simp [hgo]) hgc
  · intro b e g t hbt hdata
    unfold handlePost at hdata
    by_cases h1 : b.image.getD "" = ""
    · rw [if_pos h1] at hdata
      simp [mkErr] at hdata
    · rw [if_neg h1] at hdata
      by_cases h2 : b.type.getD "" = ""
      · rw [if_pos h2] at hdata
        simp [mkErr] at hdata
      · rw [if_neg h2] at hdata
        by_cases h3 : b.image.getD "" = "test"
        · rw [if_pos h3] at hdata
          rw [hbt] at hdata
          simp only [Option.getD_some] at hdata
          simp only [mkOk, Option.some.injEq] at hdata
          exact absurd hdata (mock_ne_fallback e.today t)
        · rw [if_neg h3] at hdata
          by_cases h4 : e.openaiApiKey = ""
          · rw [if_pos h4] at hdata
            simp [mkErr] at hdata
          · rw [if_neg h4] at hdata
            by_cases h5 : isValidBase64Image (b.image.getD "") = false
            · rw [if_pos h5] at hdata
              simp [mkErr] at hdata
            · rw [if_neg h5] at hdata
              by_cases h6 : g.ok = false
              · rw [if_pos h6] at hdata
                simp [mkGwErr] at hdata
              · rw [if_neg h6] at hdata
                by_cases h7 : g.content.getD "" = ""
                · rw [if_pos h7] at hdata
                  simp [mkErr] at hdata
                · refine ⟨?_, h7⟩
                  cases hok : g.ok with
                  | false => exact absurd hok h6
                  | true => rfl

theorem c3_witness :
    handlePost ⟨some imgA, some "receipt"⟩ env0 gw429 = ⟨500, false, none,
      some "OpenAI API error (429): rate limited", some gw429.errorBody⟩ := by
  have h := c3_gateway_failure.1 ⟨some imgA, some "receipt"⟩ env0 gw429 imgA "receipt"
    rfl (by decide) (by decide) rfl (by decide) (by decide) (by decide) rfl
  rw [h]
  decide

/-- Claim C4 counterexample: trailing prose that contains a closing brace
changes the extracted object: extraction runs through the last closing brace,
the parse fails and the fallback replaces the object, so normalizing
prose-followed text does not extract the same object as the bare text. -/
theorem c4_counterexample :
    normalizeContent "1/2/2030" "receipt" "\x7b\"a\": 1\x7d" =
      Json.obj [("a", Json.num "1")] ∧
    normalizeContent "1/2/2030" "receipt" "\x7b\"a\": 1\x7d and that is all\x7d" =
      fallbackData "1/2/2030" "receipt" ∧
    ¬(fallbackData "1/2/2030" "receipt" = Json.obj [("a", Json.num "1")]) :=
  ⟨by decide, by decide, by decide⟩

/-- Claim C4 amended: normalizing the bare object text, the text wrapped in a
markdown fence (tagged json or untagged), or the text surrounded by prose, all
extract the same object — provided the leading prose contains no opening brace
and no backtick, the trailing prose contains no closing brace and no backtick,
and the object text does not contain the fence tag; and the extraction step
returns exactly the substring from the first opening brace through the last
closing brace of the text. -/
theorem c4_extraction_robustness :
    (∀ (d t s : String) (o : Json) (u v : List Char),
      parseJsonStr s = some o →
      s.toList.head? = some '{' → s.toList.getLast? = some '}' →
      containsFence s.toList = false →
      u.all (fun c => !(c = btick)) = true → u.all (fun c => !(c = '{')) = true →
      v.all (fun c => !(c = btick)) = true → v.all (fun c => !(c = '}')) = true →
      normalizeList d t s.toList = o ∧
      normalizeList d t (fenceOpenJson ++ s.toList ++ fenceClose) = o ∧
      normalizeList d t (fenceOpenPlain ++ s.toList ++ fenceClose) = o ∧
      normalizeList d t (u ++ s.toList ++ v) = o) ∧
    (∀ cs m : List Char, jsonBraceMatch cs = some m ↔
      ∃ w z, cs = w ++ m ++ z ∧ w.all (fun c => !(c = '{')) = true ∧
        z.all (fun c => !(c = '}')) = true ∧ m.head? = some '{' ∧
        m.getLast? = some '}') := by
  constructor
  · intro d t s o u v hp h1 h2 hf hub huo hvb hvc
    have hpl : parseJson s.toList = some o := hp
    refine ⟨normalizeList_clean d t h1 h2 hf hpl, ?_, ?_, ?_⟩
    · unfold normalizeList
      rw [extractJsonList_fenced_json h1 h2, hpl]
    · unfold normalizeList
      rw [extractJsonList_fenced_plain h1 h2 hf, hpl]
    · unfold normalizeList
      rw [extractJsonList_prose h1 h2 hf hub huo hvb hvc, hpl]
  · intro cs m
    constructor
    · exact jsonBraceMatch_spec
    · rintro ⟨w, z, rfl, hw, hz, hm1, hm2⟩
      exact jsonBraceMatch_decomp w m z hw hz hm1 hm2

theorem c4_witness :
    normalizeList "1/2/2030" "receipt"
      (fenceOpenJson ++ "\x7b\"a\": 1\x7d".toList ++ fenceClose) =
      Json.obj [("a", Json.num "1")] ∧
    normalizeList "1/2/2030" "receipt"
      ("Sure! ".toList ++ "\x7b\"a\": 1\x7d".toList ++ " Enjoy.".toList) =
      Json.obj [("a", Json.num "1")] := by
  have h := c4_extraction_robustness.1 "1/2/2030" "receipt" "\x7b\"a\": 1\x7d"
    (Json.obj [("a", Json.num "1")]) ("Sure! ".toList) (" Enjoy.".toList)
    (by decide) (by decide) (by decide) (by decide) (by decide) (by decide)
    (by decide) (by decide)
  exact ⟨h.2.1, h.2.2.2⟩

/-- Claim C5 counterexample: a bare valid receipt-shaped JSON object whose
string content contains the fence tag is mangled by the fence rewrite, so
normalization does not return it unchanged. -/
theorem c5_counterexample :
    parseJsonStr "\x7b\"items\": [\"```json\"]\x7d" =
      some (Json.obj [("items", Json.arr [Json.str "```json"])]) ∧
    shapeOk "receipt" (Json.obj [("items", Json.arr [Json.str "```json"])]) = true ∧
    normalizeContent "1/2/2030" "receipt" "\x7b\"items\": [\"```json\"]\x7d" =
      Json.obj [("items", Json.arr [Json.str ""])] ∧
    ¬(Json.obj [("items", Json.arr [Json.str ""])] =
      Json.obj [("items", Json.arr [Json.str "```json"])]) :=
  ⟨by decide, by decide, by decide, by decide⟩

/-- Claim C5 amended: for every string that is already a bare valid JSON
object of the correct shape for the requested type and that does not contain
the fence tag as a substring, normalization returns exactly the parsed object
unchanged and no fallback is triggered. -/
theorem c5_idempotence (d t s : String) (o : Json)
    (hp : parseJsonStr s = some o)
    (h1 : s.toList.head? = some '{') (h2 : s.toList.getLast? = some '}')
    (hf : containsFence s.toList = false)
    (_hs : shapeOk t o = true) :
    normalizeContent d t s = o := by
  unfold normalizeContent
  exact normalizeList_clean d t h1 h2 hf hp

theorem c5_witness :
    normalizeContent "1/2/2030" "receipt" "\x7b\"items\": []\x7d" =
      Json.obj [("items", Json.arr [])] :=
  c5_idempotence "1/2/2030" "receipt" "\x7b\"items\": []\x7d"
    (Json.obj [("items", Json.arr [])])
    (by decide) (by decide) (by decide) (by decide) (by decide)

/-- Claim C6: a POST body whose image is the literal string test short-circuits
to HTTP 200 with the canned payload of the requested type; the response does
not depend on the gateway at all (the upstream is never consulted), and the
canned branch runs even though the base64 guard would reject the string test
(the guard never runs on the sentinel). -/
theorem c6_test_sentinel (b : RequestBody) (e : Env) (g g2 : GatewayResponse) (t : String)
    (hbi : b.image = some "test") (hbt : b.type = some t) (ht0 : ¬(t = "")) :
    handlePost b e g = ⟨200, true, some (mockData e.today t), none, none⟩ ∧
    handlePost b e g = handlePost b e g2 ∧
    isValidBase64Image "test" = false ∧
    (t = "receipt" → (mockData e.today t).getField "items" =
      some (.arr [Json.obj [("name", .str "Test Item"), ("quantity", .num "1"),
        ("unit", .str "piece"), ("price", .num "1"), ("category", .str "Test")]])) ∧
    (¬(t = "receipt") → (mockData e.today t).getField "ingredients" =
      some (.arr [.str "test ingredient"])) := by
  refine ⟨handlePost_test hbi hbt ht0, ?_, by decide, ?_, ?_⟩
  · rw [handlePost_test hbi hbt ht0, handlePost_test hbi hbt ht0]
  · intro ht
    subst ht
    unfold mockData
    rw [if_pos rfl]
    rfl
  · intro ht
    unfold mockData
    rw [if_neg ht]
    rfl

theorem c6_witness :
    handlePost ⟨some "test", some "receipt"⟩ ⟨"", "1/2/2030"⟩ gw429 =
      ⟨200, true, some (mockData "1/2/2030" "receipt"), none, none⟩ :=
  (c6_test_sentinel ⟨some "test", some "receipt"⟩ ⟨"", "1/2/2030"⟩ gw429 gw429
    "receipt" rfl rfl (by decide)).1

/-- Claim C7: the image format guard strips an optional data-URL prefix and
accepts exactly the strings whose remainder is base64-alphabet text followed
by at most two padding characters with total length at least 100; a non-test
request whose image fails the guard (with the credential configured) is
answered with a 400-class response, independent of the gateway. -/
theorem c7_base64_guard :
    (∀ s : String, isValidBase64Image s = true ↔
      (100 ≤ (stripDataUrlPrefix s.toList).length ∧
        ∃ w z, stripDataUrlPrefix s.toList = w ++ z ∧ w.all isB64Char = true ∧
          z.all (fun c => (c = '=')) = true ∧ z.length ≤ 2)) ∧
    (∀ (b : RequestBody) (e : Env) (g g2 : GatewayResponse) (i : String),
      b.image = some i → ¬(i = "test") → ¬(e.openaiApiKey = "") →
      isValidBase64Image i = false →
      (handlePost b e g).status = 400 ∧ handlePost b e g = handlePost b e g2) := by
  constructor
  · intro s
    unfold isValidBase64Image b64BodyOk
    constructor
    · intro h
      simp only [Bool.and_eq_true, decide_eq_true_eq] at h
      obtain ⟨⟨hpad, hcore⟩, hlen⟩ := h
      refine ⟨hlen,
        ((stripDataUrlPrefix s.toList).reverse.dropWhile (fun c => (c = '='))).reverse,
        ((stripDataUrlPrefix s.toList).reverse.takeWhile (fun c => (c = '='))).reverse,
        ?_, hcore, ?_, ?_⟩
      · calc stripDataUrlPrefix s.toList
            = (stripDataUrlPrefix s.toList).reverse.reverse := by
              rw [List.reverse_reverse]
        _ = (((stripDataUrlPrefix s.toList).reverse.takeWhile (fun c => (c = '='))) ++
              ((stripDataUrlPrefix s.toList).reverse.dropWhile (fun c => (c = '=')))).reverse := by
              rw [List.takeWhile_append_dropWhile]
        _ = _ := by rw [List.reverse_append]
      · rw [List.all_reverse]
        exact List.all_takeWhile
      · rw [List.length_reverse]
        exact hpad
    · rintro ⟨hlen, w, z, hsplit, hw, hz, hzlen⟩
      have hwz : ∀ x ∈ w, (x = '=' : Bool) = false := by
        intro x hx
        have := List.all_eq_true.mp hw x hx
        cases hxe : (x = '=' : Bool)
        · rfl
        · exfalso
          have hx' : x = '=' := of_decide_eq_true hxe
          rw [hx'] at this
          exact absurd this (by decide)
      have hrev : (stripDataUrlPrefix s.toList).reverse = z.reverse ++ w.reverse := by
        rw [hsplit, List.reverse_append]
      have htk : (z.reverse ++ w.reverse).takeWhile (fun c => (c = '=')) =
          z.reverse ++ w.reverse.takeWhile (fun c => (c = '=')) :=
        takeWhile_append_all (by rwa [List.all_reverse])
      have hwrev : w.reverse.takeWhile (fun c => (c = '=')) = [] ∧
          w.reverse.dropWhile (fun c => (c = '=')) = w.reverse := by
        cases hwc : w.reverse with
        | nil => exact ⟨rfl, rfl⟩
        | cons a r =>
          have ha : a ∈ w := by
            have : a ∈ w.reverse := by rw [hwc]; exact List.mem_cons_self a r
            rwa [List.mem_reverse] at this
          have := hwz a ha
          rw [← hwc]
          exact ⟨takeWhile_nil_of_head (by rw [hwc]; rfl) this,
            dropWhile_self_of_head (c := a) (by rw [hwc]; rfl) this⟩
      have hdp : (z.reverse ++ w.reverse).dropWhile (fun c => (c = '=')) = w.reverse := by
        rw [dropWhile_append_all (by rwa [List.all_reverse]), hwrev.2]
      simp only [Bool.and_eq_true, decide_eq_true_eq]
      refine ⟨⟨?_, ?_⟩, hlen⟩
      · rw [hrev, htk, hwrev.1, List.append_nil, List.length_reverse]
        exact hzlen
      · rw [hrev, hdp, List.reverse_reverse]
        exact hw
  · intro b e g g2 i hbi hit hk hv
    by_cases hi0 : i = ""
    · have h0 : b.image.getD "" = "" := by rw [hbi, hi0]; rfl
      rw [handlePost_noImage h0, handlePost_noImage (g := g2) h0]
      exact ⟨rfl, rfl⟩
    · have hni : ¬(b.image.getD "" = "") := by rw [hbi]; simpa using hi0
      by_cases ht0 : b.type.getD "" = ""
      · rw [handlePost_noType hni ht0, handlePost_noType (g := g2) hni ht0]
        exact ⟨rfl, rfl⟩
      · cases hbtc : b.type with
        | none => rw [hbtc] at ht0; exact absurd rfl ht0
        | some t =>
          have ht0' : ¬(t = "") := by
            rw [hbtc] at ht0
            simpa using ht0
          rw [handlePost_badImage hbi hi0 hit hbtc ht0' hk hv,
            handlePost_badImage (g := g2) hbi hi0 hit hbtc ht0' hk hv]
          exact ⟨rfl, rfl⟩

theorem c7_witness :
    (100 ≤ (stripDataUrlPrefix imgA.toList).length ∧
      ∃ w z, stripDataUrlPrefix imgA.toList = w ++ z ∧ w.all isB64Char = true ∧
        z.all (fun c => (c = '=')) = true ∧ z.length ≤ 2) ∧
    (handlePost ⟨some "not-base64!!", some "receipt"⟩ env0 gw429).status = 400 :=
  ⟨(c7_base64_guard.1 imgA).mp (by decide),
    (c7_base64_guard.2 ⟨some "not-base64!!", some "receipt"⟩ env0 gw429 (gwOk "x")
      "not-base64!!" rfl (by decide) (by decide) (by decide)).1⟩

/-- Claim C8: a POST body missing the image field (or carrying an empty one)
is answered 400 with a message naming the image field; with image present and
the type field missing, 400 naming the type field; in both cases the response
carries no data and does not depend on the gateway, so neither the upstream
nor the normalizer is involved. -/
theorem c8_missing_fields (b : RequestBody) (e : Env) (g g2 : GatewayResponse) :
    (b.image.getD "" = "" →
      handlePost b e g = mkErr 400 "Missing required field: image" ∧
      handlePost b e g = handlePost b e g2) ∧
    (¬(b.image.getD "" = "") → b.type.getD "" = "" →
      handlePost b e g = mkErr 400 "Missing required field: type" ∧
      handlePost b e g = handlePost b e g2) ∧
    strContains "image" "Missing required field: image" = true ∧
    strContains "type" "Missing required field: type" = true ∧
    (mkErr 400 "Missing required field: image").data = none ∧
    (mkErr 400 "Missing required field: type").data = none := by
  refine ⟨?_, ?_, by decide, by decide, rfl, rfl⟩
  · intro h
    exact ⟨handlePost_noImage h, by rw [handlePost_noImage h, handlePost_noImage (g := g2) h]⟩
  · intro hni h
    exact ⟨handlePost_noType hni h,
      by rw [handlePost_noType hni h, handlePost_noType (g := g2) hni h]⟩

theorem c8_witness :
    handlePost ⟨none, some "receipt"⟩ env0 gw429 =
      mkErr 400 "Missing required field: image" ∧
    handlePost ⟨some imgA, none⟩ env0 gw429 =
      mkErr 400 "Missing required field: type" :=
  ⟨((c8_missing_fields ⟨none, some "receipt"⟩ env0 gw429 gw429).1 rfl).1,
   ((c8_missing_fields ⟨some imgA, none⟩ env0 gw429 gw429).2.1 (by decide) rfl).1⟩

/-- Claim C9 counterexample: a successful 200 receipt result can carry an
empty items array: a model text parsing to an object with empty items is
returned as-is, so the non-emptiness invariant fails on the parsed path. -/
theorem c9_counterexample :
    handlePost ⟨some imgA, some "receipt"⟩ env0 (gwOk "\x7b\"items\": []\x7d") =
      ⟨200, true, some (Json.obj [("items", Json.arr [])]), none, none⟩ ∧
    (Json.obj [("items", Json.arr [])]).getField "items" = some (Json.arr []) :=
  ⟨by decide, by decide⟩

/-- Claim C9 amended: the one-placeholder-item guarantee holds on the fallback
and test-sentinel payloads, but a successfully parsed model response is
returned without any shape check, so a successful receipt result may carry an
empty or missing items array. -/
theorem c9_items_invariant :
    (∀ d : String, (fallbackData d "receipt").getField "items" =
      some (Json.arr [fallbackReceiptItem])) ∧
    (∀ d : String, (mockData d "receipt").getField "items" =
      some (Json.arr [Json.obj [("name", .str "Test Item"), ("quantity", .num "1"),
        ("unit", .str "piece"), ("price", .num "1"), ("category", .str "Test")]])) ∧
    (∀ (b : RequestBody) (e : Env) (g : GatewayResponse) (i c : String) (v : Json),
      b.image = some i → ¬(i = "") → ¬(i = "test") → b.type = some "receipt" →
      ¬(e.openaiApiKey = "") → isValidBase64Image i = true → g.ok = true →
      g.content = some c → ¬(c = "") → parseJson (extractJsonList c.toList) = some v →
      handlePost b e g = ⟨200, true, some v, none, none⟩) := by
  refine ⟨?_, ?_, ?_⟩
  · intro d
    unfold fallbackData
    rw [if_pos rfl]
    rfl
  · intro d
    unfold mockData
    rw [if_pos rfl]
    rfl
  · intro b e g i c v hbi hi0 hit hbt hk hv hgo hgc hc0 hparse
    rw [handlePost_normalizes hbi hi0 hit hbt (by decide) hk hv (by simp [hgo]) hgc hc0]
    unfold normalizeContent normalizeList
    rw [hparse]
    rfl

theorem c9_witness :
    (fallbackData "1/2/2030" "receipt").getField "items" =
      some (Json.arr [fallbackReceiptItem]) ∧
    handlePost ⟨some imgA, some "receipt"⟩ env0 (gwOk "\x7b\"items\": []\x7d") =
      ⟨200, true, some (Json.obj [("items", Json.arr [])]), none, none⟩ :=
  ⟨c9_items_invariant.1 "1/2/2030",
   c9_items_invariant.2.2 ⟨some imgA, some "receipt"⟩ env0 (gwOk "\x7b\"items\": []\x7d")
     imgA "\x7b\"items\": []\x7d" (Json.obj [("items", Json.arr [])])
     rfl (by decide) (by decide) rfl (by decide) (by decide) rfl rfl (by decide)
     (by decide)⟩

/-- Claim C10: the type discriminator is never validated against the set of
the two known types: every non-empty type other than the literal receipt is
treated as a meal request by the prompt selection, the test-sentinel mock and
the parse-failure fallback, and the handler answers HTTP 200 with a
meal-shaped result rather than a validation error. -/
theorem c10_type_discriminator (t : String) (ht : ¬(t = "receipt")) (ht0 : ¬(t = "")) :
    promptFor t = mealPrompt ∧
    (∀ d : String, mockData d t = Json.obj [("meal_name", .str "Test Meal"),
      ("ingredients", .arr [.str "test ingredient"]),
      ("estimated_portions", Json.obj [("test ingredient", .num "0.5")])]) ∧
    (∀ d : String, fallbackData d t = Json.obj [("meal_name", .str "Meal from photo"),
      ("ingredients", .arr [.str "food item"]),
      ("estimated_portions", Json.obj [("food item", .num "0.5")])]) ∧
    (∀ (b : RequestBody) (e : Env) (g : GatewayResponse),
      b.image = some "test" → b.type = some t →
      handlePost b e g = ⟨200, true, some (Json.obj [("meal_name", .str "Test Meal"),
        ("ingredients", .arr [.str "test ingredient"]),
        ("estimated_portions", Json.obj [("test ingredient", .num "0.5")])]),
        none, none⟩) ∧
    (∀ (b : RequestBody) (e : Env) (g : GatewayResponse) (i c : String),
      b.image = some i → ¬(i = "") → ¬(i = "test") → b.type = some t →
      ¬(e.openaiApiKey = "") → isValidBase64Image i = true → g.ok = true →
      g.content = some c → ¬(c = "") →
      parseJson (extractJsonList c.toList) = none →
      handlePost b e g = ⟨200, true, some (Json.obj [("meal_name", .str "Meal from photo"),
        ("ingredients", .arr [.str "food item"]),
        ("estimated_portions", Json.obj [("food item", .num "0.5")])]),
        none, none⟩) := by
  have hmock : ∀ d : String, mockData d t = Json.obj [("meal_name", .str "Test Meal"),
      ("ingredients", .arr [.str "test ingredient"]),
      ("estimated_portions", Json.obj [("test ingredient", .num "0.5")])] := by
    intro d
    unfold mockData
    rw [if_neg ht]
  have hfall : ∀ d : String, fallbackData d t = Json.obj [("meal_name", .str "Meal from photo"),
      ("ingredients", .arr [.str "food item"]),
      ("estimated_portions", Json.obj [("food item", .num "0.5")])] := by
    intro d
    unfold fallbackData
    rw [if_neg ht]
  refine ⟨by unfold promptFor; rw [if_neg ht], hmock, hfall, ?_, ?_⟩
  · intro b e g hbi hbt
    rw [handlePost_test hbi hbt ht0, hmock e.today]
    rfl
  · intro b e g i c hbi hi0 hit hbt hk hv hgo hgc hc0 hparse
    rw [handlePost_normalizes hbi hi0 hit hbt ht0 hk hv (by simp [hgo]) hgc hc0]
    unfold normalizeContent normalizeList
    rw [hparse, hfall e.today]
    rfl

theorem c10_witness :
    promptFor "pizza" = mealPrompt ∧
    handlePost ⟨some "test", some "pizza"⟩ env0 gw429 =
      ⟨200, true, some (Json.obj [("meal_name", .str "Test Meal"),
        ("ingredients", .arr [.str "test ingredient"]),
        ("estimated_portions", Json.obj [("test ingredient", .num "0.5")])]),
        none, none⟩ :=
  ⟨(c10_type_discriminator "pizza" (by decide) (by decide)).1,
   (c10_type_discriminator "pizza" (by decide) (by decide)).2.2.2.1
     ⟨some "test", some "pizza"⟩ env0 gw429 rfl rfl⟩

end StockHome
